import Mathlib

/-!
Verification development for the xreg single-view 2D/3D registration
sampling tool (`xreg_sample_single_view_regi_2d_3d_main.cpp`).

The geometry of the tool is embedded shallowly: an Eigen `FrameTransform`
(an affine 3D transform stored as a 4x4 homogeneous matrix whose bottom
row is `[0,0,0,1]`) becomes a record of the nine rotation-block entries
and the three translation entries, all real numbers.  Composition,
point application, the affine inverse (general linear inverse of the
3x3 block, as Eigen computes for `Affine` mode transforms), determinant
and the row-major 16-entry flattening are translated directly from the
corresponding Eigen operations used by the source file.
-/

noncomputable section

/-- A 3D point or vector with real coordinates. -/
structure Vec3 where
  x : ℝ
  y : ℝ
  z : ℝ

namespace Vec3

/-- Componentwise subtraction. -/
def sub (a b : Vec3) : Vec3 := ⟨a.x - b.x, a.y - b.y, a.z - b.z⟩

/-- Componentwise negation. -/
def neg (a : Vec3) : Vec3 := ⟨-a.x, -a.y, -a.z⟩

/-- Squared Euclidean norm. -/
def normSq (a : Vec3) : ℝ := a.x ^ 2 + a.y ^ 2 + a.z ^ 2

theorem eq3_iff {a b : Vec3} : a = b ↔ a.x = b.x ∧ a.y = b.y ∧ a.z = b.z := by
  cases a; cases b; simp

end Vec3

/-- Euclidean norm of a 3D vector. -/
def vnorm (a : Vec3) : ℝ := Real.sqrt a.normSq

/-- A rigid/affine 3D transform: the nine entries of the upper-left 3x3
(rotation) block of the homogeneous 4x4 matrix, plus the translation
column.  The bottom row `[0,0,0,1]` is implicit.  This is the shallow
embedding of the xreg `FrameTransform` (Eigen affine transform). -/
structure FrameT where
  r00 : ℝ
  r01 : ℝ
  r02 : ℝ
  r10 : ℝ
  r11 : ℝ
  r12 : ℝ
  r20 : ℝ
  r21 : ℝ
  r22 : ℝ
  t0 : ℝ
  t1 : ℝ
  t2 : ℝ

namespace FrameT

theorem eqF_iff {a b : FrameT} :
    a = b ↔ a.r00 = b.r00 ∧ a.r01 = b.r01 ∧ a.r02 = b.r02 ∧
      a.r10 = b.r10 ∧ a.r11 = b.r11 ∧ a.r12 = b.r12 ∧
      a.r20 = b.r20 ∧ a.r21 = b.r21 ∧ a.r22 = b.r22 ∧
      a.t0 = b.t0 ∧ a.t1 = b.t1 ∧ a.t2 = b.t2 := by
  cases a; cases b; simp

/-- The identity transform (`FrameTransform::Identity()`). -/
def idF : FrameT := ⟨1, 0, 0, 0, 1, 0, 0, 0, 1, 0, 0, 0⟩

/-- Composition `a * b` of two affine transforms (matrix product of the
homogeneous 4x4 matrices): rotation blocks multiply, and the translation
column is `a.R * b.t + a.t`. -/
def comp (a b : FrameT) : FrameT :=
  ⟨a.r00 * b.r00 + a.r01 * b.r10 + a.r02 * b.r20,
   a.r00 * b.r01 + a.r01 * b.r11 + a.r02 * b.r21,
   a.r00 * b.r02 + a.r01 * b.r12 + a.r02 * b.r22,
   a.r10 * b.r00 + a.r11 * b.r10 + a.r12 * b.r20,
   a.r10 * b.r01 + a.r11 * b.r11 + a.r12 * b.r21,
   a.r10 * b.r02 + a.r11 * b.r12 + a.r12 * b.r22,
   a.r20 * b.r00 + a.r21 * b.r10 + a.r22 * b.r20,
   a.r20 * b.r01 + a.r21 * b.r11 + a.r22 * b.r21,
   a.r20 * b.r02 + a.r21 * b.r12 + a.r22 * b.r22,
   a.r00 * b.t0 + a.r01 * b.t1 + a.r02 * b.t2 + a.t0,
   a.r10 * b.t0 + a.r11 * b.t1 + a.r12 * b.t2 + a.t1,
   a.r20 * b.t0 + a.r21 * b.t1 + a.r22 * b.t2 + a.t2⟩

/-- Application of the transform to a 3D point: `R * p + t`. -/
def applyPt (f : FrameT) (p : Vec3) : Vec3 :=
  ⟨f.r00 * p.x + f.r01 * p.y + f.r02 * p.z + f.t0,
   f.r10 * p.x + f.r11 * p.y + f.r12 * p.z + f.t1,
   f.r20 * p.x + f.r21 * p.y + f.r22 * p.z + f.t2⟩

/-- Determinant of the 3x3 linear block. -/
def det (f : FrameT) : ℝ :=
  f.r00 * (f.r11 * f.r22 - f.r12 * f.r21) -
  f.r01 * (f.r10 * f.r22 - f.r12 * f.r20) +
  f.r02 * (f.r10 * f.r21 - f.r11 * f.r20)

/-- The affine inverse, as Eigen computes it for `Affine`-mode transforms:
the general linear inverse (adjugate over determinant) of the 3x3 block,
with translation `-(Rinv * t)`. -/
def inverse (f : FrameT) : FrameT :=
  ⟨(f.r11 * f.r22 - f.r12 * f.r21) / f.det,
   (f.r02 * f.r21 - f.r01 * f.r22) / f.det,
   (f.r01 * f.r12 - f.r02 * f.r11) / f.det,
   (f.r12 * f.r20 - f.r10 * f.r22) / f.det,
   (f.r00 * f.r22 - f.r02 * f.r20) / f.det,
   (f.r02 * f.r10 - f.r00 * f.r12) / f.det,
   (f.r10 * f.r21 - f.r11 * f.r20) / f.det,
   (f.r01 * f.r20 - f.r00 * f.r21) / f.det,
   (f.r00 * f.r11 - f.r01 * f.r10) / f.det,
   -(((f.r11 * f.r22 - f.r12 * f.r21) * f.t0 +
      (f.r02 * f.r21 - f.r01 * f.r22) * f.t1 +
      (f.r01 * f.r12 - f.r02 * f.r11) * f.t2) / f.det),
   -(((f.r12 * f.r20 - f.r10 * f.r22) * f.t0 +
      (f.r00 * f.r22 - f.r02 * f.r20) * f.t1 +
      (f.r02 * f.r10 - f.r00 * f.r12) * f.t2) / f.det),
   -(((f.r10 * f.r21 - f.r11 * f.r20) * f.t0 +
      (f.r01 * f.r20 - f.r00 * f.r21) * f.t1 +
      (f.r00 * f.r11 - f.r01 * f.r10) * f.t2) / f.det)⟩

/-- Row-major flattening of the full homogeneous 4x4 matrix into 16
scalars, as done by the double loop over `gt_off.matrix()(r,c)`. -/
def flatten16 (f : FrameT) : List ℝ :=
  [f.r00, f.r01, f.r02, f.t0,
   f.r10, f.r11, f.r12, f.t1,
   f.r20, f.r21, f.r22, f.t2,
   0, 0, 0, 1]

/-- An identity-rotation transform carrying only a translation column;
this is how the two center-of-rotation shift transforms are built
(`FrameTransform::Identity()` followed by setting the translation block). -/
def translateV (v : Vec3) : FrameT := ⟨1, 0, 0, 0, 1, 0, 0, 0, 1, v.x, v.y, v.z⟩

theorem comp_assoc (a b c : FrameT) : (a.comp b).comp c = a.comp (b.comp c) := by
  simp only [comp, eqF_iff]
  refine ⟨?_, ?_, ?_, ?_, ?_, ?_, ?_, ?_, ?_, ?_, ?_, ?_⟩ <;> ring

theorem comp_idF (f : FrameT) : f.comp idF = f := by
  simp only [comp, idF, eqF_iff]
  refine ⟨?_, ?_, ?_, ?_, ?_, ?_, ?_, ?_, ?_, ?_, ?_, ?_⟩ <;> ring

theorem idF_comp (f : FrameT) : idF.comp f = f := by
  simp only [comp, idF, eqF_iff]
  refine ⟨?_, ?_, ?_, ?_, ?_, ?_, ?_, ?_, ?_, ?_, ?_, ?_⟩ <;> ring

theorem applyPt_idF (p : Vec3) : idF.applyPt p = p := by
  simp only [applyPt, idF, Vec3.eq3_iff]
  refine ⟨?_, ?_, ?_⟩ <;> ring

theorem applyPt_comp (a b : FrameT) (p : Vec3) :
    (a.comp b).applyPt p = a.applyPt (b.applyPt p) := by
  simp only [comp, applyPt, Vec3.eq3_iff]
  refine ⟨?_, ?_, ?_⟩ <;> ring

theorem det_comp (a b : FrameT) : (a.comp b).det = a.det * b.det := by
  simp only [comp, det]
  ring

theorem det_idF : idF.det = 1 := by
  simp only [det, idF]
  ring

theorem det_translateV (v : Vec3) : (translateV v).det = 1 := by
  simp only [det, translateV]
  ring

theorem translateV_cancel (v : Vec3) :
    (translateV v).comp (translateV v.neg) = idF := by
  simp only [comp, translateV, Vec3.neg, idF, eqF_iff]
  refine ⟨?_, ?_, ?_, ?_, ?_, ?_, ?_, ?_, ?_, ?_, ?_, ?_⟩ <;> ring

set_option maxHeartbeats 1600000 in
theorem inverse_comp_self {f : FrameT} (h : f.det ≠ 0) : f.inverse.comp f = idF := by
  simp only [det] at h
  simp only [inverse, comp, idF, det, eqF_iff]
  refine ⟨?_, ?_, ?_, ?_, ?_, ?_, ?_, ?_, ?_, ?_, ?_, ?_⟩ <;>
    (field_simp) <;> ring

set_option maxHeartbeats 1600000 in
theorem self_comp_inverse {f : FrameT} (h : f.det ≠ 0) : f.comp f.inverse = idF := by
  simp only [det] at h
  simp only [inverse, comp, idF, det, eqF_iff]
  refine ⟨?_, ?_, ?_, ?_, ?_, ?_, ?_, ?_, ?_, ?_, ?_, ?_⟩ <;>
    (field_simp) <;> ring

theorem inverse_applyPt_applyPt {f : FrameT} (h : f.det ≠ 0) (p : Vec3) :
    f.inverse.applyPt (f.applyPt p) = p := by
  rw [← applyPt_comp, inverse_comp_self h, applyPt_idF]

theorem applyPt_inverse_applyPt {f : FrameT} (h : f.det ≠ 0) (p : Vec3) :
    f.applyPt (f.inverse.applyPt p) = p := by
  rw [← applyPt_comp, self_comp_inverse h, applyPt_idF]

theorem inverse_applyPt_eq {f : FrameT} (h : f.det ≠ 0) {p q : Vec3}
    (key : f.applyPt q = p) : f.inverse.applyPt p = q := by
  rw [← key, inverse_applyPt_applyPt h]

theorem det_inverse_mul {f : FrameT} (h : f.det ≠ 0) : f.inverse.det * f.det = 1 := by
  have hc := congrArg FrameT.det (inverse_comp_self h)
  rwa [det_comp, det_idF] at hc

theorem det_inverse_ne_zero {f : FrameT} (h : f.det ≠ 0) : f.inverse.det ≠ 0 := by
  intro h0
  have hm := det_inverse_mul h
  rw [h0, zero_mul] at hm
  exact zero_ne_one hm

end FrameT

/-- An se(3) tangent vector: three rotation generators (radians) followed
by three translation components (millimeters), matching one 6-entry
column of the `pose_param_samples` matrix. -/
structure Tangent where
  rx : ℝ
  ry : ℝ
  rz : ℝ
  tx : ℝ
  ty : ℝ
  tz : ℝ

/-- The all-zero tangent vector (`col(0).setZero()`). -/
def zeroTangent : Tangent := ⟨0, 0, 0, 0, 0, 0⟩

/-- The six entries of a tangent vector in dimension order, the row
written to the raw tangent parameter CSV table. -/
def tangentList (v : Tangent) : List ℝ := [v.rx, v.ry, v.rz, v.tx, v.ty, v.tz]

/-- Conditional on a real proposition, with a classically chosen
decision procedure; used for the small-angle branch of the exponential
map. -/
def cif (p : Prop) (a b : ℝ) : ℝ := @ite ℝ p (Classical.propDecidable p) a b

theorem cif_pos {p : Prop} (h : p) (a b : ℝ) : cif p a b = a := by
  simp only [cif]
  exact if_pos h

/-- Modelled from the spec: the closed-form se(3) exponential map of
`SE3OptVarsLieAlg` (source in `xregSE3OptVars`, outside `src/`).  The
rotation generators map to a rotation matrix `I + a W + b W^2` through
the standard angle-axis (Rodrigues) formula, and the translation couples
through the left-Jacobian `V = I + b W + c W^2` applied to the
translation generators, where `W` is the skew matrix of the rotation
generators, `a = sin t / t`, `b = (1 - cos t) / t^2`,
`c = (t - sin t) / t^3` at angle `t`, each replaced below a small-angle
threshold of `1e-6` radians by its Taylor expansion, so the map stays
numerically stable as the angle vanishes. -/
def expSE3 (v : Tangent) : FrameT :=
  let th := Real.sqrt (v.rx ^ 2 + v.ry ^ 2 + v.rz ^ 2)
  let a := cif (th < 1e-6) (1 - th ^ 2 / 6) (Real.sin th / th)
  let b := cif (th < 1e-6) (1 / 2 - th ^ 2 / 24) ((1 - Real.cos th) / th ^ 2)
  let c := cif (th < 1e-6) (1 / 6 - th ^ 2 / 120) ((th - Real.sin th) / th ^ 3)
  ⟨1 + b * (-(v.ry ^ 2) - v.rz ^ 2),
   a * (-v.rz) + b * (v.rx * v.ry),
   a * v.ry + b * (v.rx * v.rz),
   a * v.rz + b * (v.rx * v.ry),
   1 + b * (-(v.rx ^ 2) - v.rz ^ 2),
   a * (-v.rx) + b * (v.ry * v.rz),
   a * (-v.ry) + b * (v.rx * v.rz),
   a * v.rx + b * (v.ry * v.rz),
   1 + b * (-(v.rx ^ 2) - v.ry ^ 2),
   (1 + c * (-(v.ry ^ 2) - v.rz ^ 2)) * v.tx +
     (b * (-v.rz) + c * (v.rx * v.ry)) * v.ty +
     (b * v.ry + c * (v.rx * v.rz)) * v.tz,
   (b * v.rz + c * (v.rx * v.ry)) * v.tx +
     (1 + c * (-(v.rx ^ 2) - v.rz ^ 2)) * v.ty +
     (b * (-v.rx) + c * (v.ry * v.rz)) * v.tz,
   (b * (-v.ry) + c * (v.rx * v.rz)) * v.tx +
     (b * v.rx + c * (v.ry * v.rz)) * v.ty +
     (1 + c * (-(v.rx ^ 2) - v.ry ^ 2)) * v.tz⟩

theorem expSE3_zero : expSE3 zeroTangent = FrameT.idF := by
  simp only [expSE3, zeroTangent, FrameT.idF, FrameT.eqF_iff]
  norm_num

/-- The anchor point expressed in the camera projection frame
(`center_of_rot_wrt_cam_proj_frame = cam.extrins * gt.inverse() * A`). -/
def centerOfRotWrtCam (extrins gt : FrameT) (A : Vec3) : Vec3 :=
  (extrins.comp gt.inverse).applyPt A

/-- `cam_proj_frame_shift_from_center_of_rot`: identity rotation with
translation column `+anchor_cam`. -/
def shiftFromCoR (extrins gt : FrameT) (A : Vec3) : FrameT :=
  FrameT.translateV (centerOfRotWrtCam extrins gt A)

/-- `cam_proj_frame_shift_to_center_of_rot`: identity rotation with
translation column `-anchor_cam`. -/
def shiftToCoR (extrins gt : FrameT) (A : Vec3) : FrameT :=
  FrameT.translateV (centerOfRotWrtCam extrins gt A).neg

/-- `cam_extrins_to_center_of_rot_in_proj_frame = shift_to * extrins`. -/
def camExtrinsToCoR (extrins gt : FrameT) (A : Vec3) : FrameT :=
  (shiftToCoR extrins gt A).comp extrins

/-- `center_of_rot_in_proj_frame_to_vol = gt * extrins.inverse() * shift_from`. -/
def coRToVol (extrins gt : FrameT) (A : Vec3) : FrameT :=
  (gt.comp extrins.inverse).comp (shiftFromCoR extrins gt A)

/-- The composite camera-extrinsic-to-volume pose of one sample
(`cam_extrins_to_vol = center_of_rot_in_proj_frame_to_vol * gt_off *
cam_extrins_to_center_of_rot_in_proj_frame`). -/
def camExtrinsToVol (extrins gt : FrameT) (A : Vec3) (gtOff : FrameT) : FrameT :=
  ((coRToVol extrins gt A).comp gtOff).comp (camExtrinsToCoR extrins gt A)

theorem camExtrinsToVol_idOff {extrins : FrameT} (gt : FrameT) (A : Vec3)
    (he : extrins.det ≠ 0) : camExtrinsToVol extrins gt A FrameT.idF = gt := by
  unfold camExtrinsToVol coRToVol camExtrinsToCoR shiftFromCoR shiftToCoR
  rw [FrameT.comp_idF]
  rw [FrameT.comp_assoc, FrameT.comp_assoc, ← FrameT.comp_assoc (FrameT.translateV _),
    FrameT.translateV_cancel, FrameT.idF_comp, FrameT.inverse_comp_self he,
    FrameT.comp_idF]

/-- Degrees-to-radians conversion factor (`kDEG2RAD`). -/
def kDEG2RAD : ℝ := Real.pi / 180

/-- Radians-to-degrees conversion factor (`kRAD2DEG`). -/
def kRAD2DEG : ℝ := 180 / Real.pi

/-- The zero-cross-covariance multivariate normal distribution held by
the sampler: a 6-entry mean and a 6-entry vector of per-dimension
standard deviations (the class itself lives in `xregMultivarNormDist`,
outside `src/`; only its parameters matter here). -/
structure MultivarNormalDistZeroCov where
  mean : Tangent
  stdDevs : Tangent

/-- The `PoseParamSamplerIndepNormalDims` constructor: it copies the six
standard-deviation arguments into the distribution parameter vector in
order, unchanged, and pairs them with an all-zero mean.  (Note that no
unit conversion happens here; the six arguments are stored verbatim.) -/
def PoseParamSamplerIndepNormalDims
    (rotX rotY rotZ transX transY transZ : ℝ) : MultivarNormalDistZeroCov :=
  ⟨zeroTangent, ⟨rotX, rotY, rotZ, transX, transY, transZ⟩⟩

/-- The sampler that `main` constructs: the call site passes
`1.0 * kDEG2RAD` for each rotation dimension (performing the
degree-to-radian conversion at the call) and `1.0, 1.0, 5.0` millimeters
for the translation dimensions. -/
def mainParamSampler : MultivarNormalDistZeroCov :=
  PoseParamSamplerIndepNormalDims
    (1.0 * kDEG2RAD) (1.0 * kDEG2RAD) (1.0 * kDEG2RAD) 1.0 1.0 5.0

/-- Modelled from the spec: one 6-dimensional draw of
`MultivarNormalDist::draw_samples` (source outside `src/`).  Each
dimension is drawn independently: the borrowed random stream supplies
one standard normal variate per dimension, scaled by that dimension
std-dev and shifted by the mean.  The stream is abstracted as a function
from consumed-variate positions to values. -/
def drawOne (d : MultivarNormalDistZeroCov) (stream : ℕ → ℝ) (pos : ℕ) : Tangent :=
  ⟨d.mean.rx + d.stdDevs.rx * stream pos,
   d.mean.ry + d.stdDevs.ry * stream (pos + 1),
   d.mean.rz + d.stdDevs.rz * stream (pos + 2),
   d.mean.tx + d.stdDevs.tx * stream (pos + 3),
   d.mean.ty + d.stdDevs.ty * stream (pos + 4),
   d.mean.tz + d.stdDevs.tz * stream (pos + 5)⟩

/-- Modelled from the spec: `draw_samples(count, rng)` draws `count`
6-entry columns sequentially from the borrowed stream (column 0 first),
consuming six variates per column, and returns the columns together with
the advanced stream position. -/
def drawSamples (d : MultivarNormalDistZeroCov) (count : ℕ) (stream : ℕ → ℝ)
    (pos : ℕ) : List Tangent × ℕ :=
  ((List.range count).map (fun j => drawOne d stream (pos + 6 * j)), pos + 6 * count)

/-- The batch tangent-vector draw of `main` (lines 313-320): the matrix
`pose_param_samples` has `num_samples` columns; column 0 is set to zero,
and columns `1..N-1` are filled by one call to `SamplePoseParams(N-1)`,
which forwards to `draw_samples` on `mainParamSampler`.  Returns the
columns in index order and the advanced stream position. -/
def buildPoseParams (numSamples : ℕ) (stream : ℕ → ℝ) (pos : ℕ) :
    List Tangent × ℕ :=
  (zeroTangent :: (drawSamples mainParamSampler (numSamples - 1) stream pos).1,
   (drawSamples mainParamSampler (numSamples - 1) stream pos).2)

/-- Modelled from the spec: `ComputeRotAngTransMag` (source in
`xregRigidUtils`, outside `src/`) returns the total rotation angle in
radians, the angle-axis magnitude of the rotation block (recovered from
its trace), and the Euclidean norm of the translation component in
millimeters. -/
def ComputeRotAngTransMag (f : FrameT) : ℝ × ℝ :=
  (Real.arccos ((f.r00 + f.r11 + f.r22 - 1) / 2),
   vnorm ⟨f.t0, f.t1, f.t2⟩)

/-- The six outputs of the Euler decomposition: three angles in radians
and the three raw translation components. -/
structure EulerXYZTrans where
  ex : ℝ
  ey : ℝ
  ez : ℝ
  tX : ℝ
  tY : ℝ
  tZ : ℝ

/-- Modelled from the spec: `RigidXformToEulerXYZAndTrans` (source in
`xregRigidUtils`, outside `src/`) decomposes the rotation block into
Euler angles about the X, Y and Z axes in radians under a fixed XYZ
convention (here extracted from the bottom row and first column of the
rotation block) and returns the three translation components verbatim. -/
def RigidXformToEulerXYZAndTrans (f : FrameT) : EulerXYZTrans :=
  ⟨Real.arctan (f.r21 / f.r22),
   Real.arcsin (-f.r20),
   Real.arctan (f.r10 / f.r00),
   f.t0, f.t1, f.t2⟩

/-- One row of the offset magnitudes table, built exactly as the loop
body does (lines 407-419): entries 0 and 1 from `ComputeRotAngTransMag`
on the offset, entry 0 then scaled by `kRAD2DEG`; entries 2-7 from
`RigidXformToEulerXYZAndTrans` on the offset, entries 2, 3 and 4 then
scaled by `kRAD2DEG`. -/
def decompOffsetRow (f : FrameT) : List ℝ :=
  [(ComputeRotAngTransMag f).1 * kRAD2DEG,
   (ComputeRotAngTransMag f).2,
   (RigidXformToEulerXYZAndTrans f).ex * kRAD2DEG,
   (RigidXformToEulerXYZAndTrans f).ey * kRAD2DEG,
   (RigidXformToEulerXYZAndTrans f).ez * kRAD2DEG,
   (RigidXformToEulerXYZAndTrans f).tX,
   (RigidXformToEulerXYZAndTrans f).tY,
   (RigidXformToEulerXYZAndTrans f).tZ]

/-- The rows accumulated into `sampled_poses_csv` and later written to
`cam_extrins_to_vol_poses.csv`: for each sample, the loop flattens the
offset transform `gt_off = se3(pose_param_samples.col(i))` (lines
384-398). -/
def sampledPosesCsv (tvs : List Tangent) : List (List ℝ) :=
  tvs.map (fun v => FrameT.flatten16 (expSE3 v))

/-- The rows accumulated into `pose_params_csv` (lines 400-405): the six
raw tangent entries of each sample. -/
def poseParamsCsv (tvs : List Tangent) : List (List ℝ) :=
  tvs.map tangentList

/-- The rows accumulated into `sampled_decomp_offsets` (lines 407-419). -/
def sampledDecompOffsets (tvs : List Tangent) : List (List ℝ) :=
  tvs.map (fun v => decompOffsetRow (expSE3 v))

/-- The composite transforms accumulated into
`sampled_cam_to_pelvis_vol` (lines 421-428), one per sample. -/
def sampledCamToPelvisVol (extrins gt : FrameT) (A : Vec3)
    (tvs : List Tangent) : List FrameT :=
  tvs.map (fun v => camExtrinsToVol extrins gt A (expSE3 v))

/-- Exit code for success (`kEXIT_VAL_SUCCESS`). -/
def kEXIT_VAL_SUCCESS : ℤ := 0

/-- Exit code for bad usage (`kEXIT_VAL_BAD_USE`). -/
def kEXIT_VAL_BAD_USE : ℤ := 1

/-- Exit code for bad HDF5 input (`kEXIT_VAL_BAD_INPUT_HDF5`). -/
def kEXIT_VAL_BAD_INPUT_HDF5 : ℤ := 2

/-- Externally observable events of one run of `main`, in program
order: creating the output directory, the single batch draw from the
random stream, and the per-sample render dispatch and the four
per-sample image file writes, then the three summary CSV file writes. -/
inductive MainEv where
  | makeOutDir : MainEv
  | rngDraw (count : ℕ) : MainEv
  | render (i : ℕ) : MainEv
  | writeDrrRaw (i : ℕ) : MainEv
  | writeDrrRemap (i : ℕ) : MainEv
  | writeEdges (i : ℕ) : MainEv
  | writeEdgesOverlay (i : ℕ) : MainEv
  | writeOffsetsCsv : MainEv
  | writeSe3ParamsCsv : MainEv
  | writePosesCsv : MainEv
deriving DecidableEq

/-- Whether an event consumes the random stream. -/
def MainEv.isRngDraw : MainEv → Bool
  | .rngDraw _ => true
  | _ => false

/-- Whether an event dispatches a render. -/
def MainEv.isRender : MainEv → Bool
  | .render _ => true
  | _ => false

/-- Whether an event writes one of the three summary CSV tables. -/
def MainEv.isCsvWrite : MainEv → Bool
  | .writeOffsetsCsv => true
  | .writeSe3ParamsCsv => true
  | .writePosesCsv => true
  | _ => false

/-- The events of one loop iteration (lines 377-459): the render
dispatch (`edge_creator()`), then the four per-sample image writes in
source order. -/
def sampleEvents (i : ℕ) : List MainEv :=
  [.render i, .writeDrrRaw i, .writeDrrRemap i, .writeEdges i, .writeEdgesOverlay i]

/-- The three summary CSV writes after the loop, in source order
(lines 461-482). -/
def csvEvents : List MainEv :=
  [.writeOffsetsCsv, .writeSe3ParamsCsv, .writePosesCsv]

/-- The run of `main` after command-line parsing, as its exit code and
its ordered list of observable events.  Mirrors lines 245-487:
`num_samples < 1` aborts with the bad-usage code before anything else;
an existing non-directory output path aborts with the bad-usage code;
otherwise the output directory is created when missing, the batch draw
of `num_samples - 1` tangent vectors happens once, the per-sample loop
runs for indices `0..num_samples-1`, and the three summary CSV tables
are written after the loop.  The parsed sample count is modelled as an
integer (the spec calls it a positive integer; the parse itself is
outside this file). -/
def mainRun (numSamples : ℤ) (dstDirExists dstDirIsDir : Bool) :
    ℤ × List MainEv :=
  if numSamples < 1 then (kEXIT_VAL_BAD_USE, [])
  else if dstDirExists && !dstDirIsDir then (kEXIT_VAL_BAD_USE, [])
  else
    (kEXIT_VAL_SUCCESS,
     (if dstDirExists then [] else [.makeOutDir]) ++
       [.rngDraw (numSamples.toNat - 1)] ++
       (List.range numSamples.toNat).flatMap sampleEvents ++
       csvEvents)

/-- The events already emitted when the render of sample `k` fails:
the loop has completed iterations `0..k-1` (their renders and image
writes) and has dispatched the render of sample `k`; nothing after that
point has happened.  Per the spec a render failure is fatal to the whole
run. -/
def abortedRunEvents (numSamples : ℤ) (dstDirExists : Bool) (k : ℕ) :
    List MainEv :=
  (if dstDirExists then [] else [.makeOutDir]) ++
    [.rngDraw (numSamples.toNat - 1)] ++
    (List.range k).flatMap sampleEvents ++
    [.render k]

/-- Written after the words of the spec (section 4.3, step 1): the
anchor point coordinates in the camera projection frame,
`anchor_cam = extrinsic * ground_truth_extrinsic_to_volume.inverse() *
anchor_volume`. -/
def specAnchorCam (extrins gt : FrameT) (A : Vec3) : Vec3 :=
  (extrins.comp gt.inverse).applyPt A

/-- Written after the words of the spec (steps 2 and 3): `ShiftFrom` is
the identity transform with translation column `+anchor_cam`. -/
def specShiftFrom (extrins gt : FrameT) (A : Vec3) : FrameT :=
  FrameT.translateV (specAnchorCam extrins gt A)

/-- Written after the words of the spec: `ShiftTo` is the identity
transform with translation column `-anchor_cam`. -/
def specShiftTo (extrins gt : FrameT) (A : Vec3) : FrameT :=
  FrameT.translateV (specAnchorCam extrins gt A).neg

/-- Written after the words of the spec (step 4):
`PreOffset = ShiftTo * extrinsic`. -/
def specPreOffset (extrins gt : FrameT) (A : Vec3) : FrameT :=
  (specShiftTo extrins gt A).comp extrins

/-- Written after the words of the spec (step 5):
`PostOffset = ground_truth * extrinsic.inverse() * ShiftFrom`. -/
def specPostOffset (extrins gt : FrameT) (A : Vec3) : FrameT :=
  (gt.comp extrins.inverse).comp (specShiftFrom extrins gt A)

/-- Written after the words of the spec (step 6):
`Composite = PostOffset * T * PreOffset`. -/
def specComposite (extrins gt : FrameT) (A : Vec3) (T : FrameT) : FrameT :=
  ((specPostOffset extrins gt A).comp T).comp (specPreOffset extrins gt A)

/-- C4: for every extrinsic transform, ground-truth transform, anchor
point and offset transform, the composite camera-to-volume pose built by
the code (anchor in the camera frame, the two shift transforms, the pre
and post transforms, and the sandwich `PostOffset * T * PreOffset`)
coincides with the anchoring algebra spelled out by the spec. -/
theorem c4_anchoring_algebra_matches_spec (extrins gt : FrameT) (A : Vec3)
    (T : FrameT) : camExtrinsToVol extrins gt A T = specComposite extrins gt A T := rfl

/-- C7: a run requesting exactly one sample builds a tangent matrix
with exactly one column, the zero column, and the batch-sampling step
returns the random stream position unchanged: no stochastic draw is
consumed. -/
theorem c7_single_sample_no_draws (stream : ℕ → ℝ) (pos : ℕ) :
    buildPoseParams 1 stream pos = ([zeroTangent], pos) ∧
      (buildPoseParams 1 stream pos).1.length = 1 := by
  constructor
  · simp [buildPoseParams, drawSamples]
  · simp [buildPoseParams, drawSamples]

/-- C5 counterexample: the claim that the rotation standard deviations
are converted from degrees to radians inside the
`PoseParamSamplerIndepNormalDims` constructor fails at the concrete
input `(1, 1, 1, 1, 1, 5)`: the constructor stores the first rotation
std-dev as exactly `1`, whereas an in-constructor conversion would have
stored `kDEG2RAD * 1`, and the two differ. -/
theorem c5_no_conversion_in_ctor_counterexample :
    (PoseParamSamplerIndepNormalDims 1 1 1 1 1 5).stdDevs.rx = 1 ∧
      kDEG2RAD * 1 ≠ 1 := by
  refine ⟨rfl, ?_⟩
  intro h
  rw [kDEG2RAD] at h
  have hpi : Real.pi = 180 := by linarith [mul_one (Real.pi / 180)] 
  have := Real.pi_lt_d2
  linarith

/-- C5 amended: the concrete sampler variant is constructed from six
independent standard deviations with zero means and zero
cross-covariance, but the constructor stores the six values verbatim;
the degree-to-radian conversion of the three rotation std-devs happens
at the construction call site in `main`, which passes `1.0 * kDEG2RAD`
for each rotation dimension (and `1, 1, 5` millimeters for the
translation dimensions). -/
theorem c5_stddevs_stored_verbatim_conversion_at_call_site :
    (∀ rotX rotY rotZ transX transY transZ : ℝ,
      PoseParamSamplerIndepNormalDims rotX rotY rotZ transX transY transZ =
        ⟨zeroTangent, ⟨rotX, rotY, rotZ, transX, transY, transZ⟩⟩) ∧
      mainParamSampler.mean = zeroTangent ∧
      mainParamSampler.stdDevs = ⟨kDEG2RAD, kDEG2RAD, kDEG2RAD, 1, 1, 5⟩ := by
  refine ⟨fun _ _ _ _ _ _ => rfl, rfl, ?_⟩
  simp only [mainParamSampler, PoseParamSamplerIndepNormalDims]
  norm_num

/-- C6: for every parsed sample count that is zero or negative, the run
aborts with the bad-usage exit code, which is distinct from both the
success code and the bad-input code, and it emits no observable side
effect at all: no directory creation, no random draw, no render, no
file write — in particular no output-directory side effect and nothing
before sampling could even start. -/
theorem c6_nonpositive_count_rejected (numSamples : ℤ)
    (dstDirExists dstDirIsDir : Bool) (h : numSamples < 1) :
    mainRun numSamples dstDirExists dstDirIsDir = (kEXIT_VAL_BAD_USE, []) ∧
      kEXIT_VAL_BAD_USE ≠ kEXIT_VAL_SUCCESS ∧
      kEXIT_VAL_BAD_USE ≠ kEXIT_VAL_BAD_INPUT_HDF5 := by
  refine ⟨?_, ?_, ?_⟩
  · simp [mainRun, h]
  · simp [kEXIT_VAL_BAD_USE, kEXIT_VAL_SUCCESS]
  · simp [kEXIT_VAL_BAD_USE, kEXIT_VAL_BAD_INPUT_HDF5]

/-- Witness for C6 at the concrete input: sample count 0 with an
existing output directory. -/
theorem c6_nonpositive_count_rejected_witness :
    (0 : ℤ) < 1 ∧
      (mainRun 0 true true = (kEXIT_VAL_BAD_USE, []) ∧
        kEXIT_VAL_BAD_USE ≠ kEXIT_VAL_SUCCESS ∧
        kEXIT_VAL_BAD_USE ≠ kEXIT_VAL_BAD_INPUT_HDF5) :=
  ⟨by norm_num, c6_nonpositive_count_rejected 0 true true (by norm_num)⟩

/-- C3: for every sampled run (any random stream and stream position,
i.e. any seed, and any requested count `N >= 1`), the first column of
the tangent matrix is exactly the zero vector, and the first accumulated
composite camera-to-volume transform is exactly the unperturbed
ground-truth pose, provided the camera extrinsic transform is
nonsingular.  The equality is exact, so in particular it holds within
any positive tolerance. -/
theorem c3_first_sample_is_ground_truth (numSamples : ℕ) (stream : ℕ → ℝ)
    (pos : ℕ) (extrins gt : FrameT) (A : Vec3)
    (hN : 1 ≤ numSamples) (he : extrins.det ≠ 0) :
    (buildPoseParams numSamples stream pos).1[0]? = some zeroTangent ∧
      (sampledCamToPelvisVol extrins gt A
        (buildPoseParams numSamples stream pos).1)[0]? = some gt := by
  constructor
  · simp [buildPoseParams]
  · simp only [sampledCamToPelvisVol, buildPoseParams, List.map_cons,
      List.getElem?_cons_zero, expSE3_zero]
    rw [camExtrinsToVol_idOff gt A he]

/-- Witness for C3 at the concrete input: one sample, the all-zeros
stream, the identity extrinsic and a pure-translation ground truth. -/
theorem c3_first_sample_is_ground_truth_witness :
    (1 ≤ 1 ∧ FrameT.idF.det ≠ 0) ∧
      ((buildPoseParams 1 (fun _ => 0) 0).1[0]? = some zeroTangent ∧
        (sampledCamToPelvisVol FrameT.idF (FrameT.translateV ⟨1, 2, 3⟩) ⟨0, 0, 0⟩
          (buildPoseParams 1 (fun _ => 0) 0).1)[0]? =
            some (FrameT.translateV ⟨1, 2, 3⟩)) := by
  have he : FrameT.idF.det ≠ 0 := by rw [FrameT.det_idF]; norm_num
  exact ⟨⟨le_refl 1, he⟩,
    c3_first_sample_is_ground_truth 1 (fun _ => 0) 0 FrameT.idF
      (FrameT.translateV ⟨1, 2, 3⟩) ⟨0, 0, 0⟩ (le_refl 1) he⟩

/-- C1: evaluation of the code at a failing input.  Take a single-sample
run (so the only tangent vector is the zero column, whose offset
transform is the identity), the identity camera extrinsic and a
ground-truth pose that is a pure translation by `(1, 2, 3)`.  The row
the loop pushes into `sampled_poses_csv` — the table later written to
`cam_extrins_to_vol_poses.csv` — is the row-major flattening of the
offset transform, that is, of the identity; the composite
camera-to-volume transform of that same sample is the ground-truth
pose, and its flattening differs from the written row.  So the
written table does not contain the composite poses claimed by the
spec (and by the file name and by the comment accompanying
`sampled_cam_to_pelvis_vol`). -/
theorem c1_poses_csv_holds_offset_not_composite :
    sampledPosesCsv [zeroTangent] = [FrameT.flatten16 FrameT.idF] ∧
      sampledCamToPelvisVol FrameT.idF (FrameT.translateV ⟨1, 2, 3⟩) ⟨0, 0, 0⟩
          [zeroTangent] = [FrameT.translateV ⟨1, 2, 3⟩] ∧
      FrameT.flatten16 FrameT.idF ≠
        FrameT.flatten16 (FrameT.translateV ⟨1, 2, 3⟩) := by
  have he : FrameT.idF.det ≠ 0 := by rw [FrameT.det_idF]; norm_num
  refine ⟨?_, ?_, ?_⟩
  · simp [sampledPosesCsv, expSE3_zero]
  · simp only [sampledCamToPelvisVol, List.map_cons, List.map_nil, expSE3_zero]
    rw [camExtrinsToVol_idOff _ _ he]
  · simp only [FrameT.flatten16, FrameT.idF, FrameT.translateV]
    intro h
    have h3 := congrArg (fun l => l.get? 3) h
    norm_num at h3

/-- C2 amended: the anchor fixed-point law holds with the ground truth
applied on the left of the inverted composite.  For every nonsingular
extrinsic and ground-truth transform, every anchor point, and every
pure-rotation offset `T` (all three translation components zero,
nonsingular rotation block), the point
`GroundTruth * Composite(T).inverse * A` coincides exactly with `A`, so
its distance to `A` is `0 < 1e-6`: the anchor is a true fixed point. -/
theorem c2_anchor_fixed_point_amended (extrins gt : FrameT) (A : Vec3)
    (T : FrameT) (he : extrins.det ≠ 0) (hg : gt.det ≠ 0) (hTd : T.det ≠ 0)
    (ht0 : T.t0 = 0) (ht1 : T.t1 = 0) (ht2 : T.t2 = 0) :
    vnorm (Vec3.sub
      ((gt.comp (camExtrinsToVol extrins gt A T).inverse).applyPt A) A) < 1e-6 := by
  have ha : extrins.applyPt (gt.inverse.applyPt A) = centerOfRotWrtCam extrins gt A := by
    unfold centerOfRotWrtCam
    rw [FrameT.applyPt_comp]
  have h1 : (camExtrinsToCoR extrins gt A).applyPt (gt.inverse.applyPt A) =
      ⟨0, 0, 0⟩ := by
    unfold camExtrinsToCoR shiftToCoR
    rw [FrameT.applyPt_comp, ha]
    simp only [FrameT.applyPt, FrameT.translateV, Vec3.neg, Vec3.eq3_iff]
    refine ⟨?_, ?_, ?_⟩ <;> ring
  have h2 : T.applyPt ⟨0, 0, 0⟩ = ⟨0, 0, 0⟩ := by
    simp only [FrameT.applyPt, ht0, ht1, ht2, Vec3.eq3_iff]
    refine ⟨?_, ?_, ?_⟩ <;> ring
  have h3 : (coRToVol extrins gt A).applyPt ⟨0, 0, 0⟩ = A := by
    unfold coRToVol shiftFromCoR
    rw [FrameT.applyPt_comp]
    have hsf : (FrameT.translateV (centerOfRotWrtCam extrins gt A)).applyPt
        ⟨0, 0, 0⟩ = centerOfRotWrtCam extrins gt A := by
      simp only [FrameT.applyPt, FrameT.translateV, Vec3.eq3_iff]
      refine ⟨?_, ?_, ?_⟩ <;> ring
    rw [hsf, FrameT.applyPt_comp, ← ha, FrameT.inverse_applyPt_applyPt he,
      FrameT.applyPt_inverse_applyPt hg]
  have hkey : (camExtrinsToVol extrins gt A T).applyPt (gt.inverse.applyPt A) = A := by
    unfold camExtrinsToVol
    rw [FrameT.applyPt_comp, FrameT.applyPt_comp, h1, h2, h3]
  have detC : (camExtrinsToVol extrins gt A T).det ≠ 0 := by
    have hei := FrameT.det_inverse_ne_zero he
    unfold camExtrinsToVol coRToVol camExtrinsToCoR shiftFromCoR shiftToCoR
    simp only [FrameT.det_comp, FrameT.det_translateV, one_mul, mul_one]
    exact mul_ne_zero (mul_ne_zero (mul_ne_zero hg hei) hTd) he
  have hCinv : (camExtrinsToVol extrins gt A T).inverse.applyPt A =
      gt.inverse.applyPt A := FrameT.inverse_applyPt_eq detC hkey
  rw [FrameT.applyPt_comp, hCinv, FrameT.applyPt_inverse_applyPt hg]
  simp only [Vec3.sub, Vec3.normSq, vnorm, sub_self]
  norm_num

/-- The 90-degree rotation about the camera Z axis with zero
translation: a concrete pure-rotation offset. -/
def rotZ90 : FrameT := ⟨0, -1, 0, 1, 0, 0, 0, 0, 1, 0, 0, 0⟩

/-- Witness for the amended C2 law at the concrete input: identity
extrinsic, ground truth a pure translation by `(1, 0, 0)`, anchor at
the origin, offset the 90-degree Z rotation. -/
theorem c2_anchor_fixed_point_amended_witness :
    (FrameT.idF.det ≠ 0 ∧ (FrameT.translateV ⟨1, 0, 0⟩).det ≠ 0 ∧
        rotZ90.det ≠ 0 ∧ rotZ90.t0 = 0 ∧ rotZ90.t1 = 0 ∧ rotZ90.t2 = 0) ∧
      vnorm (Vec3.sub
        (((FrameT.translateV ⟨1, 0, 0⟩).comp
          (camExtrinsToVol FrameT.idF (FrameT.translateV ⟨1, 0, 0⟩) ⟨0, 0, 0⟩
            rotZ90).inverse).applyPt ⟨0, 0, 0⟩) ⟨0, 0, 0⟩) < 1e-6 := by
  have he : FrameT.idF.det ≠ 0 := by rw [FrameT.det_idF]; norm_num
  have hg : (FrameT.translateV ⟨1, 0, 0⟩).det ≠ 0 := by
    rw [FrameT.det_translateV]; norm_num
  have hT : rotZ90.det ≠ 0 := by
    simp only [FrameT.det, rotZ90]; norm_num
  exact ⟨⟨he, hg, hT, rfl, rfl, rfl⟩,
    c2_anchor_fixed_point_amended FrameT.idF (FrameT.translateV ⟨1, 0, 0⟩)
      ⟨0, 0, 0⟩ rotZ90 he hg hT rfl rfl rfl⟩

set_option maxHeartbeats 1600000 in
/-- C2 counterexample: with the composition order exactly as the claim
states it — `Composite(T).inverse * GroundTruth * A` — the fixed-point
law fails at a concrete input.  Take the identity extrinsic, a
ground-truth pose that is a pure translation by `(1, 0, 0)`, the anchor
at the origin, and the pure-rotation offset `rotZ90` (translation
components all zero, determinant one).  The resulting point lies at
distance `sqrt 2` from the anchor, which is not below `1e-6`. -/
theorem c2_claim_order_counterexample :
    (rotZ90.t0 = 0 ∧ rotZ90.t1 = 0 ∧ rotZ90.t2 = 0 ∧ rotZ90.det = 1) ∧
      ¬ (vnorm (Vec3.sub
        (((camExtrinsToVol FrameT.idF (FrameT.translateV ⟨1, 0, 0⟩) ⟨0, 0, 0⟩
            rotZ90).inverse.comp (FrameT.translateV ⟨1, 0, 0⟩)).applyPt
          ⟨0, 0, 0⟩) ⟨0, 0, 0⟩) < 1e-6) := by
  have hdet : rotZ90.det = 1 := by
    simp only [FrameT.det, rotZ90]; norm_num
  have hC : camExtrinsToVol FrameT.idF (FrameT.translateV ⟨1, 0, 0⟩) ⟨0, 0, 0⟩
      rotZ90 = ⟨0, -1, 0, 1, 0, 0, 0, 0, 1, 0, 1, 0⟩ := by
    simp only [camExtrinsToVol, coRToVol, camExtrinsToCoR, shiftFromCoR,
      shiftToCoR, centerOfRotWrtCam, FrameT.comp, FrameT.inverse,
      FrameT.applyPt, FrameT.det, FrameT.translateV, FrameT.idF, rotZ90,
      Vec3.neg, FrameT.eqF_iff]
    norm_num
  have hv : Vec3.sub
      (((camExtrinsToVol FrameT.idF (FrameT.translateV ⟨1, 0, 0⟩) ⟨0, 0, 0⟩
          rotZ90).inverse.comp (FrameT.translateV ⟨1, 0, 0⟩)).applyPt
        ⟨0, 0, 0⟩) ⟨0, 0, 0⟩ = ⟨-1, -1, 0⟩ := by
    rw [hC]
    simp only [FrameT.comp, FrameT.inverse, FrameT.applyPt, FrameT.det,
      FrameT.translateV, Vec3.sub, Vec3.eq3_iff]
    norm_num
  refine ⟨⟨rfl, rfl, rfl, hdet⟩, ?_⟩
  rw [hv]
  have hn : vnorm ⟨-1, -1, 0⟩ = Real.sqrt 2 := by
    simp only [vnorm, Vec3.normSq]
    norm_num
  rw [hn]
  intro hlt
  nlinarith [Real.sq_sqrt (show (0:ℝ) ≤ 2 by norm_num), Real.sqrt_nonneg 2]

/-- C9: for every sample (any tangent list and any index holding value
`v`), the corresponding row of the offset magnitudes table has exactly 8
entries, all computed from the sample offset transform `expSE3 v` (not
from the composite): the angle-axis rotation magnitude of the rotation
block in radians scaled to degrees, the Euclidean norm of the
translation in millimeters, the three Euler X/Y/Z angles scaled from
radians to degrees, and the three raw translation components
unconverted. -/
theorem c9_offset_magnitudes_row (tvs : List Tangent) (i : ℕ) (v : Tangent)
    (h : tvs[i]? = some v) :
    (sampledDecompOffsets tvs)[i]? = some
      [Real.arccos (((expSE3 v).r00 + (expSE3 v).r11 + (expSE3 v).r22 - 1) / 2) *
          kRAD2DEG,
        vnorm ⟨(expSE3 v).t0, (expSE3 v).t1, (expSE3 v).t2⟩,
        Real.arctan ((expSE3 v).r21 / (expSE3 v).r22) * kRAD2DEG,
        Real.arcsin (-(expSE3 v).r20) * kRAD2DEG,
        Real.arctan ((expSE3 v).r10 / (expSE3 v).r00) * kRAD2DEG,
        (expSE3 v).t0, (expSE3 v).t1, (expSE3 v).t2] ∧
      (decompOffsetRow (expSE3 v)).length = 8 := by
  constructor
  · simp [sampledDecompOffsets, List.getElem?_map, h, decompOffsetRow,
      ComputeRotAngTransMag, RigidXformToEulerXYZAndTrans]
  · simp [decompOffsetRow]

/-- Witness for C9 at the concrete input: the singleton tangent list
holding the zero vector, index 0. -/
theorem c9_offset_magnitudes_row_witness :
    ([zeroTangent][0]? = some zeroTangent) ∧
      ((sampledDecompOffsets [zeroTangent])[0]? = some
        [Real.arccos (((expSE3 zeroTangent).r00 + (expSE3 zeroTangent).r11 +
            (expSE3 zeroTangent).r22 - 1) / 2) * kRAD2DEG,
          vnorm ⟨(expSE3 zeroTangent).t0, (expSE3 zeroTangent).t1,
            (expSE3 zeroTangent).t2⟩,
          Real.arctan ((expSE3 zeroTangent).r21 / (expSE3 zeroTangent).r22) *
            kRAD2DEG,
          Real.arcsin (-(expSE3 zeroTangent).r20) * kRAD2DEG,
          Real.arctan ((expSE3 zeroTangent).r10 / (expSE3 zeroTangent).r00) *
            kRAD2DEG,
          (expSE3 zeroTangent).t0, (expSE3 zeroTangent).t1,
          (expSE3 zeroTangent).t2] ∧
        (decompOffsetRow (expSE3 zeroTangent)).length = 8) :=
  ⟨rfl, c9_offset_magnitudes_row [zeroTangent] 0 zeroTangent rfl⟩

/-- The property asserted by claim C8 for one run configuration: the run
trace splits as some events before the single batch draw, the batch draw
of `N - 1` tangent vectors, and the remaining events; nothing before the
batch draw renders or consumes the stream, and nothing after it — the
whole render/decompose loop and the table writes — ever consumes the
stream again.  Moreover the tangent matrix fixed by the batch step has
column 0 forced to zero and columns `1..N-1` drawn sequentially from
consecutive stream positions, advancing the stream by exactly
`6 * (N - 1)` variates. -/
def C8Batching (numSamples : ℤ) (dstDirExists dstDirIsDir : Bool)
    (stream : ℕ → ℝ) (pos : ℕ) : Prop :=
  (∃ pre rest,
    (mainRun numSamples dstDirExists dstDirIsDir).2 =
        pre ++ [MainEv.rngDraw (numSamples.toNat - 1)] ++ rest ∧
      (∀ ev ∈ pre, ev.isRngDraw = false ∧ ev.isRender = false) ∧
      (∀ ev ∈ rest, ev.isRngDraw = false)) ∧
    (buildPoseParams numSamples.toNat stream pos).1 =
      zeroTangent :: (List.range (numSamples.toNat - 1)).map
        (fun j => drawOne mainParamSampler stream (pos + 6 * j)) ∧
    (buildPoseParams numSamples.toNat stream pos).2 = pos + 6 * (numSamples.toNat - 1)

/-- C8: every run that proceeds past the argument checks (positive
sample count, usable output path) draws all its tangent vectors in one
sequential batch before any rendering, and never touches the random
stream during the per-sample loop. -/
theorem c8_batch_draw_before_rendering (numSamples : ℤ)
    (dstDirExists dstDirIsDir : Bool) (stream : ℕ → ℝ) (pos : ℕ)
    (hN : 1 ≤ numSamples) (hd : dstDirExists = true → dstDirIsDir = true) :
    C8Batching numSamples dstDirExists dstDirIsDir stream pos := by
  have hlt : ¬ numSamples < 1 := not_lt.mpr hN
  have hdir : (dstDirExists && !dstDirIsDir) = false := by
    cases dstDirExists with
    | false => rfl
    | true => rw [hd rfl]; rfl
  refine ⟨?_, ?_, ?_⟩
  · refine ⟨(if dstDirExists then [] else [.makeOutDir]),
      (List.range numSamples.toNat).flatMap sampleEvents ++ csvEvents, ?_, ?_, ?_⟩
    · simp [mainRun, hlt, hdir, List.append_assoc]
    · intro ev hev
      cases dstDirExists with
      | false =>
        simp only [if_neg Bool.false_ne_true, List.mem_singleton] at hev
        subst hev
        exact ⟨rfl, rfl⟩
      | true =>
        simp at hev
    · intro ev hev
      simp only [List.mem_append, List.mem_flatMap, List.mem_range, csvEvents,
        sampleEvents, List.mem_cons, List.not_mem_nil, or_false] at hev
      rcases hev with ⟨i, _, hev⟩ | hev
      · rcases hev with rfl | rfl | rfl | rfl | rfl <;> rfl
      · rcases hev with rfl | rfl | rfl <;> rfl
  · simp [buildPoseParams, drawSamples]
  · simp [buildPoseParams, drawSamples]

/-- Witness for C8 at the concrete input: two samples, an existing
output directory, the all-zeros stream at position 0. -/
theorem c8_batch_draw_before_rendering_witness :
    ((1 : ℤ) ≤ 2 ∧ (true = true → true = true)) ∧
      C8Batching 2 true true (fun _ => 0) 0 :=
  ⟨⟨by norm_num, fun h => h⟩,
    c8_batch_draw_before_rendering 2 true true (fun _ => 0) 0 (by norm_num)
      (fun h => h)⟩

/-- The property asserted by claim C10 for one run configuration and one
abort index `k`: in the completed run, the three summary CSV writes form
the final suffix of the trace and no CSV write occurs anywhere earlier,
while every sample index gets its four image writes during the loop; and
in a run that aborts at sample `k` (render failure), the emitted events
contain no CSV write at all, yet still contain all four image writes of
every sample index below `k`. -/
def C10TablesLast (numSamples : ℤ) (dstDirExists dstDirIsDir : Bool)
    (k : ℕ) : Prop :=
  (∃ front,
    (mainRun numSamples dstDirExists dstDirIsDir).2 = front ++ csvEvents ∧
      (∀ ev ∈ front, ev.isCsvWrite = false) ∧
      (∀ i < numSamples.toNat,
        MainEv.writeDrrRaw i ∈ front ∧ MainEv.writeDrrRemap i ∈ front ∧
          MainEv.writeEdges i ∈ front ∧ MainEv.writeEdgesOverlay i ∈ front)) ∧
    (∀ ev ∈ abortedRunEvents numSamples dstDirExists k, ev.isCsvWrite = false) ∧
    (∀ i < k,
      MainEv.writeDrrRaw i ∈ abortedRunEvents numSamples dstDirExists k ∧
        MainEv.writeDrrRemap i ∈ abortedRunEvents numSamples dstDirExists k ∧
        MainEv.writeEdges i ∈ abortedRunEvents numSamples dstDirExists k ∧
        MainEv.writeEdgesOverlay i ∈ abortedRunEvents numSamples dstDirExists k)

/-- C10: the three summary CSV tables are written only once, after all
samples have completed, while the four per-sample image artifacts are
written inside the loop; a run aborting at sample `k` therefore leaves
no summary table on disk but keeps the image artifacts of every sample
index below `k`. -/
theorem c10_tables_only_after_loop (numSamples : ℤ)
    (dstDirExists dstDirIsDir : Bool) (k : ℕ) (hN : 1 ≤ numSamples)
    (hd : dstDirExists = true → dstDirIsDir = true) (hk : k < numSamples.toNat) :
    C10TablesLast numSamples dstDirExists dstDirIsDir k := by
  have hlt : ¬ numSamples < 1 := not_lt.mpr hN
  have hdir : (dstDirExists && !dstDirIsDir) = false := by
    cases dstDirExists with
    | false => rfl
    | true => rw [hd rfl]; rfl
  have hpre : ∀ ev ∈ (if dstDirExists then ([] : List MainEv) else [.makeOutDir]),
      ev.isCsvWrite = false := by
    intro ev hev
    cases dstDirExists with
    | false =>
      simp only [if_neg Bool.false_ne_true, List.mem_singleton] at hev
      subst hev
      rfl
    | true => simp at hev
  refine ⟨?_, ?_, ?_⟩
  · refine ⟨(if dstDirExists then [] else [.makeOutDir]) ++
      [MainEv.rngDraw (numSamples.toNat - 1)] ++
      (List.range numSamples.toNat).flatMap sampleEvents, ?_, ?_, ?_⟩
    · simp [mainRun, hlt, hdir, List.append_assoc]
    · intro ev hev
      simp only [List.mem_append] at hev
      rcases hev with (hev | hev) | hev
      · exact hpre ev hev
      · simp only [List.mem_singleton] at hev
        subst hev
        rfl
      · simp only [List.mem_flatMap, List.mem_range, sampleEvents,
          List.mem_cons, List.not_mem_nil, or_false] at hev
        rcases hev with ⟨i, _, hev⟩
        rcases hev with rfl | rfl | rfl | rfl | rfl <;> rfl
    · intro i hi
      refine ⟨?_, ?_, ?_, ?_⟩ <;>
        (simp only [List.mem_append, List.mem_flatMap, List.mem_range,
          sampleEvents, List.mem_cons, List.not_mem_nil, or_false]
         exact Or.inr ⟨i, hi, by simp⟩)
  · intro ev hev
    simp only [abortedRunEvents, List.mem_append] at hev
    rcases hev with ((hev | hev) | hev) | hev
    · exact hpre ev hev
    · simp only [List.mem_singleton] at hev
      subst hev
      rfl
    · simp only [List.mem_flatMap, List.mem_range, sampleEvents,
        List.mem_cons, List.not_mem_nil, or_false] at hev
      rcases hev with ⟨i, _, hev⟩
      rcases hev with rfl | rfl | rfl | rfl | rfl <;> rfl
    · simp only [List.mem_singleton] at hev
      subst hev
      rfl
  · intro i hi
    refine ⟨?_, ?_, ?_, ?_⟩ <;>
      (simp only [abortedRunEvents, List.mem_append, List.mem_flatMap,
        List.mem_range, sampleEvents, List.mem_cons, List.not_mem_nil, or_false]
       exact Or.inl (Or.inr ⟨i, hi, by simp⟩))

/-- Witness for C10 at the concrete input: two samples, an existing
output directory, and an abort at sample index 1. -/
theorem c10_tables_only_after_loop_witness :
    ((1 : ℤ) ≤ 2 ∧ (true = true → true = true) ∧ 1 < (2 : ℤ).toNat) ∧
      C10TablesLast 2 true true 1 :=
  ⟨⟨by norm_num, fun h => h, by norm_num⟩,
    c10_tables_only_after_loop 2 true true 1 (by norm_num) (fun h => h)
      (by norm_num)⟩
